import Mathlib

/-!
# tfinstall: download with verification

A shallow embedding of `tfinstall/download.go` (`ensureInstallDir`,
`downloadWithVerification`, `verifySumsSignature`, `tfUrl`) and of the test helper
`filesEqual` from `tfexec/internal/e2etest/util_test.go`.

Go strings are `String`, byte slices are `List Nat`, Go errors are values of `GoError`
and a `(T, error)` result is a pair or an `Except`.  The operating system, the
network and the libraries the code calls (`os`, `io/ioutil`, `path/filepath`, `bufio`,
`go-getter`, `openpgp`) are not part of the repository; they appear either as fields of
`Env` (arbitrary behaviour) or as small environment models, each marked as such.
-/

namespace TerraformExec

/-! ## Go values -/

abbrev Bytes := List Nat

/-- Go `error` values: a message, and for errors built with the `%w` verb the wrapped
cause. -/
inductive GoError where
  | leaf (msg : String)
  | wrapped (msg : String) (cause : GoError)
  deriving DecidableEq, Repr

/-- The `Error()` method. -/
def GoError.Error : GoError → String
  | .leaf m => m
  | .wrapped m _ => m

/-- The `errors.Unwrap` function. -/
def GoError.Unwrap : GoError → Option GoError
  | .leaf _ => none
  | .wrapped _ c => some c

/-- Environment model of `fmt.Sprintf` restricted to the verbs the code uses (`%s`, and
`%w` which formats like `%s`), all operands being strings.  A verb without operand
prints Go's `%!s(MISSING)` marker. -/
def sprintfAux : List Char → List String → List Char
  | [], _ => []
  | '%' :: 's' :: rest, a :: as => a.data ++ sprintfAux rest as
  | '%' :: 'w' :: rest, a :: as => a.data ++ sprintfAux rest as
  | '%' :: 's' :: rest, [] => "%!s(MISSING)".data ++ sprintfAux rest []
  | '%' :: 'w' :: rest, [] => "%!w(MISSING)".data ++ sprintfAux rest []
  | c :: rest, as => c :: sprintfAux rest as

def Sprintf (format : String) (args : List String) : String :=
  ⟨sprintfAux format.data args⟩

/-- `fmt.Errorf` with a format using `%s` only: the result wraps nothing. -/
def Errorf (format : String) (args : List String) : GoError :=
  .leaf (Sprintf format args)

/-- `fmt.Errorf` with a format whose last operand is printed by `%w`: the result
wraps that operand. -/
def ErrorfW (format : String) (args : List String) (err : GoError) : GoError :=
  .wrapped (Sprintf format (args ++ [err.Error])) err

/-! ## tfUrl -/

/-- Source: `tfUrl` (download.go 125-133); `baseUrl` is a package constant declared in
another file of the package and is taken as a parameter. -/
def tfUrl (baseUrl tfVersion osName archName : String) : String :=
  let sumsFilename := "terraform_" ++ tfVersion ++ "_SHA256SUMS"
  let sumsUrl := Sprintf "%s/%s/%s" [baseUrl, tfVersion, sumsFilename]
  Sprintf "%s/%s/terraform_%s_%s_%s.zip?checksum=file:%s"
    [baseUrl, tfVersion, tfVersion, osName, archName, sumsUrl]

/-! ## Environment: file system, network log, libraries -/

/-- The part of the machine state the code can observe or change: the directories and
regular files that exist, the paths the process may not access, and the log of
retrievals answered by the remote side (URL and answer, oldest first). -/
structure World where
  dirs : List String
  files : List (String × Bytes)
  denied : List String
  net : List (String × Option Bytes)
  deriving DecidableEq, Repr

def World.pathExists (w : World) (p : String) : Bool :=
  decide (p ∈ w.dirs) || decide (p ∈ w.files.map Prod.fst)

/-- Environment model of `os.Stat`, reduced to its error result. -/
def Stat (w : World) (name : String) : Option GoError :=
  if name ∈ w.denied then some (.leaf ("stat " ++ name ++ ": permission denied"))
  else if w.pathExists name then none
  else some (.leaf ("stat " ++ name ++ ": no such file or directory"))

/-- An open file: its name and, for a regular file, its bytes; a directory can be
opened but every read of it fails (`content = none`). -/
structure File where
  name : String
  content : Option Bytes
  deriving DecidableEq, Repr

/-- Environment model of `os.Open`. -/
def Open (w : World) (name : String) : Except GoError File :=
  if name ∈ w.denied then .error (.leaf ("open " ++ name ++ ": permission denied"))
  else match w.files.lookup name with
    | some b => .ok ⟨name, some b⟩
    | none =>
      if name ∈ w.dirs then .ok ⟨name, none⟩
      else .error (.leaf ("open " ++ name ++ ": no such file or directory"))

/-- Whether path `p` is `root` or lies below it. -/
def under (root p : String) : Bool :=
  p == root || (root ++ "/").data.isPrefixOf p.data

/-- Environment model of `os.RemoveAll`: the path and everything below it is gone
afterwards. -/
def RemoveAll (path : String) (w : World) : World :=
  { w with
    dirs := w.dirs.filter (fun d => !under path d)
    files := w.files.filter (fun f => !under path f.1) }

/-- The `getter.ClientMode` enumeration of go-getter. -/
inductive ClientMode where
  | ClientModeInvalid
  | ClientModeAny
  | ClientModeFile
  | ClientModeDir
  deriving DecidableEq, Repr

/-- The fields of `getter.Client` the code sets.  `Getters` lists the URL schemes for
which a getter is registered. -/
structure Client where
  Src : String
  Dst : String
  Mode : ClientMode
  Getters : List String
  deriving DecidableEq, Repr

abbrev KeyRing := List String

/-- Everything `download.go` takes from elsewhere: package constants declared in
another file (`baseUrl`, `hashicorpPublicKey`), the Go runtime constants, and the
library calls, whose behaviour is arbitrary here. -/
structure Env where
  baseUrl : String
  hashicorpPublicKey : String
  GOOS : String
  GOARCH : String
  /-- The `filepath.Join` function. -/
  join : String → String → String
  /-- The name `ioutil.TempDir dir pattern` would give the new directory, or `none`
  when it fails. -/
  mkTemp : String → String → World → Option String
  /-- The `Get` method of `getter.Client`: its error result and its effect. -/
  get : Client → World → Option GoError × World
  /-- The `openpgp.ReadArmoredKeyRing` function applied to a string reader. -/
  readArmoredKeyRing : String → Except GoError KeyRing
  /-- The `openpgp.CheckDetachedSignature` function, reduced to its error result. -/
  checkDetachedSignature : KeyRing → File → File → Option GoError

/-- Environment model of `ioutil.TempDir`: on success a directory that did not exist
before has been created and its name is returned; on failure the name is empty. -/
def TempDir (E : Env) (dir pattern : String) (w : World) :
    (String × Option GoError) × World :=
  match E.mkTemp dir pattern w with
  | none => (("", some (.leaf "mkdirtemp: cannot create directory")), w)
  | some name =>
    if w.pathExists name then (("", some (.leaf "mkdirtemp: file exists")), w)
    else ((name, none), { w with dirs := name :: w.dirs })

/-! ## The functions of download.go -/

/-- Source: `ensureInstallDir` (download.go 16-26). -/
def ensureInstallDir (E : Env) (installDir : String) (w : World) :
    (String × Option GoError) × World :=
  if installDir = "" then
    TempDir E "" "tfexec" w
  else
    match Stat w installDir with
    | some err =>
      (("", some (ErrorfW "could not access directory %s for installing Terraform: %w"
          [installDir] err)), w)
    | none => ((installDir, none), w)

/-- Source: `verifySumsSignature` (download.go 107-123). -/
def verifySumsSignature (E : Env) (sumsPath sumsSigPath : String) (w : World) :
    Option GoError :=
  match E.readArmoredKeyRing E.hashicorpPublicKey with
  | .error err => some err
  | .ok el =>
    match Open w sumsPath with
    | .error err => some err
    | .ok data =>
      match Open w sumsSigPath with
      | .error err => some err
      | .ok sig => E.checkDetachedSignature el data sig

/-- What one call of `downloadWithVerification` did, in order: directories it created
with `ioutil.TempDir` itself, calls of `client.Get` with the client as it was at the
call, calls of `verifySumsSignature`, and the deferred `os.RemoveAll`. -/
inductive Event where
  | tempDir (pattern name : String)
  | get (c : Client) (res : Option GoError)
  | verify (sumsPath sumsSigPath : String) (res : Option GoError)
  | removeAll (path : String)
  deriving DecidableEq, Repr

/-- The two results of `downloadWithVerification`, the events of the call and the
state it leaves. -/
structure Run where
  path : String
  err : Option GoError
  trace : List Event
  world : World
  deriving DecidableEq, Repr

/-- Source: `downloadWithVerification` from the line after the `defer`
(download.go 63-102), with the client and the two directories as they are there. -/
def downloadSteps (E : Env) (tfVersion osName archName tfDir sumsTmpDir : String)
    (client : Client) (w : World) : Run :=
  let sumsFilename := "terraform_" ++ tfVersion ++ "_SHA256SUMS"
  let sumsSigFilename := sumsFilename ++ ".sig"
  let sumsUrl := Sprintf "%s/%s/%s" [E.baseUrl, tfVersion, sumsFilename]
  let sumsSigUrl := Sprintf "%s/%s/%s" [E.baseUrl, tfVersion, sumsSigFilename]
  let client := { client with Src := sumsUrl }
  let client := { client with Dst := sumsTmpDir }
  match E.get client w with
  | (some err, w1) =>
    ⟨"", some (Errorf "error fetching checksums: %s" [err.Error]),
      [.get client (some err)], w1⟩
  | (none, w1) =>
    let client2 := { client with Src := sumsSigUrl }
    match E.get client2 w1 with
    | (some err, w2) =>
      ⟨"", some (Errorf "error fetching checksums signature: %s" [err.Error]),
        [.get client none, .get client2 (some err)], w2⟩
    | (none, w2) =>
      let sumsPath := E.join sumsTmpDir sumsFilename
      let sumsSigPath := E.join sumsTmpDir sumsSigFilename
      match verifySumsSignature E sumsPath sumsSigPath w2 with
      | some err =>
        ⟨"", some err,
          [.get client none, .get client2 none, .verify sumsPath sumsSigPath (some err)],
          w2⟩
      | none =>
        let url := tfUrl E.baseUrl tfVersion osName archName
        let client3 := { client2 with Src := url }
        let client3 := { client3 with Dst := tfDir }
        let client3 := { client3 with Mode := ClientMode.ClientModeDir }
        match E.get client3 w2 with
        | (some err, w3) =>
          ⟨"", some err,
            [.get client none, .get client2 none, .verify sumsPath sumsSigPath none,
              .get client3 (some err)], w3⟩
        | (none, w3) =>
          ⟨E.join tfDir "terraform", none,
            [.get client none, .get client2 none, .verify sumsPath sumsSigPath none,
              .get client3 none], w3⟩

/-- Source: `downloadWithVerification` (download.go 28-103).  The context argument only
reaches the library through the client and is part of `Env.get`. -/
def downloadWithVerification (E : Env) (tfVersion installDir : String) (w : World) :
    Run :=
  let osName := E.GOOS
  let archName := E.GOARCH
  match ensureInstallDir E installDir w with
  | ((_, some err), w1) => ⟨"", some err, [], w1⟩
  | ((tfDir, none), w1) =>
    let client : Client :=
      { Src := "", Dst := "", Mode := ClientMode.ClientModeInvalid, Getters := ["https"] }
    let client := { client with Mode := ClientMode.ClientModeAny }
    match TempDir E "" "tfinstall" w1 with
    | ((_, some err), w2) => ⟨"", some err, [], w2⟩
    | ((sumsTmpDir, none), w2) =>
      let r := downloadSteps E tfVersion osName archName tfDir sumsTmpDir client w2
      { r with
        trace := Event.tempDir "tfinstall" sumsTmpDir :: r.trace ++ [.removeAll sumsTmpDir]
        world := RemoveAll sumsTmpDir r.world }

/-- The source URLs of the `client.Get` calls of a run, in call order. -/
def Run.fetched (r : Run) : List String :=
  r.trace.filterMap fun e =>
    match e with
    | .get c _ => some c.Src
    | _ => none

/-! ## Environment model of go-getter

`getter.Client.Get` is library code.  The model below covers the two request shapes the
code issues: a plain file in any-mode, and a zip archive in directory mode carrying the
query `checksum=file:REF`.  For the second, go-getter first downloads the checksum file
from `REF` with a client of its own, looks up the entry for the archive's file name,
then downloads the archive, compares its digest with the entry and unpacks it. -/

/-- The remote side and the pure library functions of the go-getter model. -/
structure Lib where
  /-- The answer of the remote side to retrieval number `k` (counted over the whole
  process) of a URL; `none` is a transport failure. -/
  respond : Nat → String → Option Bytes
  /-- The digest go-getter computes of downloaded bytes. -/
  sha256 : Bytes → Bytes
  /-- The digest a checksum file lists for a file name, if any. -/
  sumsEntry : Bytes → String → Option Bytes
  /-- The entries of a zip archive, `none` when it cannot be unpacked. -/
  unzip : Bytes → Option (List (String × Bytes))

/-- One retrieval: the remote answers, the answer is logged. -/
def retrieve (L : Lib) (url : String) (w : World) : Option Bytes × World :=
  (L.respond w.net.length url,
    { w with net := w.net ++ [(url, L.respond w.net.length url)] })

/-- The text before the first `?` and, when there is one, the text after it. -/
def splitQuery : List Char → List Char × Option (List Char)
  | [] => ([], none)
  | c :: r =>
    if c = '?' then ([], some r)
    else ((c :: (splitQuery r).1), (splitQuery r).2)

/-- The reference `REF` of a query `checksum=file:REF`. -/
def checksumFileRef : Option (List Char) → Option String
  | none => none
  | some q =>
    if "checksum=file:".data.isPrefixOf q then some ⟨q.drop 14⟩ else none

/-- The text after the last `/`. -/
def baseName : List Char → List Char
  | [] => []
  | c :: r =>
    if '/' ∈ r then baseName r
    else if c = '/' then r else c :: r

def writeFile (p : String) (b : Bytes) (w : World) : World :=
  { w with files := (p, b) :: w.files.filter (fun f => f.1 != p) }

def schemeSupported (getters : List String) (url : List Char) : Bool :=
  getters.any fun s => (s ++ "://").data.isPrefixOf url

/-- Environment model of `getter.Client.Get` (see the section comment).  Requests of
any other shape are outside the model and are answered by an error. -/
def goGet (L : Lib) (join : String → String → String) (c : Client) (w : World) :
    Option GoError × World :=
  let path := (splitQuery c.Src.data).1
  let query := (splitQuery c.Src.data).2
  if !schemeSupported c.Getters path then
    (some (.leaf "download not supported for scheme"), w)
  else
    match checksumFileRef query, c.Mode, ".zip".data.isSuffixOf path with
    | none, .ClientModeAny, false =>
      match retrieve L ⟨path⟩ w with
      | (none, w1) => (some (.leaf "bad response code"), w1)
      | (some b, w1) => (none, writeFile (join c.Dst ⟨baseName path⟩) b w1)
    | some ref, .ClientModeDir, true =>
      if !schemeSupported c.Getters ref.data then
        (some (.leaf "invalid checksum: download not supported for scheme"), w)
      else
        match retrieve L ref w with
        | (none, w1) =>
          (some (.leaf "invalid checksum: Error downloading checksum file"), w1)
        | (some sums, w1) =>
          match L.sumsEntry sums ⟨baseName path⟩ with
          | none => (some (.leaf "invalid checksum: no checksum found"), w1)
          | some want =>
            match retrieve L ⟨path⟩ w1 with
            | (none, w2) => (some (.leaf "bad response code"), w2)
            | (some zip, w2) =>
              if L.sha256 zip ≠ want then
                (some (.leaf "Checksums did not match"), w2)
              else
                match L.unzip zip with
                | none => (some (.leaf "zip: not a valid zip file"), w2)
                | some entries =>
                  (none, entries.foldl (fun w e => writeFile (join c.Dst e.1) e.2 w) w2)
    | _, _, _ => (some (.leaf "request shape outside the model"), w)

/-- An environment whose `client.Get` is the go-getter model over `L` and whose other
fields are those of `E`. -/
def withGoGetter (L : Lib) (E : Env) : Env :=
  { E with get := goGet L E.join }

/-! ## Concrete environments -/

/-- A `filepath.Join` for paths that are already clean. -/
def joinSlash (a b : String) : String := a ++ "/" ++ b

/-- Temporary names: the pattern followed by `1` below `/tmp`. -/
def mkTempOne (_dir pattern : String) (_w : World) : Option String :=
  some ("/tmp/" ++ pattern ++ "1")

/-- A toy signature scheme: the key ring holds the key text, and a signature is valid
for data when it is the data followed by the byte 7. -/
def toyCheck (_el : KeyRing) (data sig : File) : Option GoError :=
  match data.content, sig.content with
  | some d, some s =>
    if s = d ++ [7] then none else some (.leaf "openpgp: invalid signature")
  | _, _ => some (.leaf "read error")

/-- An environment without go-getter model: `client.Get` is `get`. -/
def toyEnv (get : Client → World → Option GoError × World) : Env :=
  { baseUrl := "https://r.example/terraform"
    hashicorpPublicKey := "KEY"
    GOOS := "linux"
    GOARCH := "amd64"
    join := joinSlash
    mkTemp := mkTempOne
    get := get
    readArmoredKeyRing := fun k => .ok [k]
    checkDetachedSignature := toyCheck }

/-- A `client.Get` that always fails and changes nothing. -/
def getFails (_c : Client) (w : World) : Option GoError × World :=
  (some (.leaf "connection refused"), w)

/-- A `client.Get` that always succeeds and changes nothing. -/
def getNoop (_c : Client) (w : World) : Option GoError × World :=
  (none, w)

/-- A machine with the directories `/tmp` and `/opt/tf` and no files. -/
def world0 : World :=
  { dirs := ["/tmp", "/opt/tf"], files := [], denied := [], net := [] }

/-- A remote side that changes its answer for the checksum file: retrievals 0 and 1
are answered with the genuine checksum file `[1]` and its signature; retrieval 2, of
the same URL as retrieval 0, is answered with `[2]`; the archive is `[2]`. -/
def flipRespond (k : Nat) (_url : String) : Option Bytes :=
  match k with
  | 0 => some [1]
  | 1 => some [1, 7]
  | _ => some [2]

/-- A toy library: the digest of bytes is the bytes themselves, a checksum file lists
itself as the digest of every file name, and an archive holds the one file
`terraform`. -/
def flipLib : Lib :=
  { respond := flipRespond
    sha256 := fun b => b
    sumsEntry := fun sums _ => some sums
    unzip := fun b => some [("terraform", b)] }

def flipEnv : Env := withGoGetter flipLib (toyEnv getNoop)

/-- A remote side that answers the signature retrieval with bytes that are no valid
signature of the checksum file. -/
def badSigLib : Lib :=
  { flipLib with respond := fun k _ => if k = 1 then some [9] else some [1] }

def badSigEnv : Env := withGoGetter badSigLib (toyEnv getNoop)

/-! ## Names for the local values of downloadWithVerification -/

/-- The local `sumsFilename` (download.go 63). -/
def sumsFilename (v : String) : String := "terraform_" ++ v ++ "_SHA256SUMS"

/-- The local `sumsUrl` (download.go 66). -/
def sumsUrl (E : Env) (v : String) : String :=
  Sprintf "%s/%s/%s" [E.baseUrl, v, sumsFilename v]

/-- The local `sumsSigUrl` (download.go 68). -/
def sumsSigUrl (E : Env) (v : String) : String :=
  Sprintf "%s/%s/%s" [E.baseUrl, v, sumsFilename v ++ ".sig"]

/-- The client at the first `client.Get` (download.go 73). -/
def sumsClient (E : Env) (v tmp : String) : Client :=
  { Src := sumsUrl E v, Dst := tmp, Mode := ClientMode.ClientModeAny, Getters := ["https"] }

/-- The client at the second `client.Get` (download.go 79). -/
def sigClient (E : Env) (v tmp : String) : Client :=
  { Src := sumsSigUrl E v, Dst := tmp, Mode := ClientMode.ClientModeAny,
    Getters := ["https"] }

/-- The client at the third `client.Get` (download.go 97). -/
def zipClient (E : Env) (v tfDir : String) : Client :=
  { Src := tfUrl E.baseUrl v E.GOOS E.GOARCH, Dst := tfDir,
    Mode := ClientMode.ClientModeDir, Getters := ["https"] }

/-- The client as it is before the first assignment to `Src` (download.go 47-53). -/
def client0 : Client :=
  { Src := "", Dst := "", Mode := ClientMode.ClientModeAny, Getters := ["https"] }

/-- The archive URL inside `tfUrl`: the text before the query. -/
def zipUrl (E : Env) (v : String) : String :=
  E.baseUrl ++ "/" ++ v ++ "/terraform_" ++ v ++ "_" ++ E.GOOS ++ "_" ++ E.GOARCH ++ ".zip"

/-- The state of the run on `flipEnv` at its call of `verifySumsSignature`: after the
scratch directory was created and the checksum file and the signature were fetched. -/
def flipVerifyWorld : World :=
  (flipEnv.get (sigClient flipEnv "1.0.7" "/tmp/tfinstall1")
    (flipEnv.get (sumsClient flipEnv "1.0.7" "/tmp/tfinstall1")
      (TempDir flipEnv "" "tfinstall" world0).2).2).2

/-! ## filesEqual (util_test.go)

`bufio.Scanner` with its default split function is library code.  In the model a
scanner over a file is the list of tokens its `Scan` calls deliver: the lines of the
file without their end-of-line marker, scanning stopping at the end of the input, at a
read error, or at a line that does not fit the buffer.  After `Scan` has returned
false, `Bytes` is empty. -/

def maxScanTokenSize : Nat := 65536

/-- The `dropCR` function of bufio: a final carriage return is removed. -/
def dropCR (line : Bytes) : Bytes :=
  if line.getLast? = some 13 then line.dropLast else line

/-- Tokens of the input still to read, `acc` being the bytes of the current line read so
far, last byte first. -/
def scanTokens : Bytes → Bytes → List Bytes
  | [], [] => []
  | [], b :: acc =>
    if (b :: acc).length ≥ maxScanTokenSize then [] else [dropCR (b :: acc).reverse]
  | b :: rest, acc =>
    if b = 10 then
      if acc.length ≥ maxScanTokenSize then [] else dropCR acc.reverse :: scanTokens rest []
    else scanTokens rest (b :: acc)

/-- Environment model of `bufio.NewScanner` on an open file. -/
def NewScanner (f : File) : List Bytes :=
  match f.content with
  | some b => scanTokens b []
  | none => []

/-- Source: the loop of `filesEqual` (util_test.go 160-167): `sscan` and `dscan` are the
tokens the two scanners still deliver. -/
def filesEqualLoop : List Bytes → List Bytes → Bool
  | [], _ => false
  | s :: sscan, dscan =>
    if s ≠ dscan.headD [] then true
    else filesEqualLoop sscan dscan.tail

/-- Source: `filesEqual` (util_test.go 146-168). -/
def filesEqual (w : World) (file1 file2 : String) : Bool × Option GoError :=
  match Open w file1 with
  | .error err => (false, some err)
  | .ok sf =>
    match Open w file2 with
    | .error err => (false, some err)
    | .ok df => (filesEqualLoop (NewScanner sf) (NewScanner df), none)

/-- A machine with two files of the same contents `a\n` and a third file `b\n`. -/
def worldFiles : World :=
  { dirs := ["/d"], files := [("/d/one", [97, 10]), ("/d/two", [97, 10]),
      ("/d/three", [98, 10])], denied := [], net := [] }

theorem sprintf3 (a b c : String) :
    Sprintf "%s/%s/%s" [a, b, c] = a ++ "/" ++ b ++ "/" ++ c := by
  apply String.ext
  simp [Sprintf, sprintfAux, String.data_append]

theorem tfUrl_eq (baseUrl v o a : String) :
    tfUrl baseUrl v o a =
      baseUrl ++ "/" ++ v ++ "/terraform_" ++ v ++ "_" ++ o ++ "_" ++ a
        ++ ".zip?checksum=file:"
        ++ (baseUrl ++ "/" ++ v ++ "/terraform_" ++ v ++ "_SHA256SUMS") := by
  apply String.ext
  simp [tfUrl, Sprintf, sprintfAux, String.data_append]

/-! ## Results of one call -/

theorem downloadSteps_err_path (E : Env) (v o a tfDir tmp : String) (c : Client)
    (w : World) :
    ((downloadSteps E v o a tfDir tmp c w).err = none →
        (downloadSteps E v o a tfDir tmp c w).path = E.join tfDir "terraform") ∧
      ((downloadSteps E v o a tfDir tmp c w).err ≠ none →
        (downloadSteps E v o a tfDir tmp c w).path = "") := by
  unfold downloadSteps
  simp only []
  split
  · simp
  · split
    · simp
    · split
      · simp
      · split <;> simp

theorem ensureInstallDir_nonempty (E : Env) (d : String) (w : World) (hd : d ≠ "") :
    ensureInstallDir E d w =
      match Stat w d with
      | some err =>
        (("", some (ErrorfW "could not access directory %s for installing Terraform: %w"
          [d] err)), w)
      | none => ((d, none), w) := by
  simp [ensureInstallDir, hd]

theorem under_self (p : String) : under p p = true := by
  simp [under]

theorem removeAll_gone (p : String) (w : World) :
    (RemoveAll p w).pathExists p = false := by
  simp [RemoveAll, World.pathExists, List.mem_filter, under_self]

/-- C8: on a nil error the returned path is `filepath.Join(tfDir, "terraform")` for
the directory `tfDir` that `ensureInstallDir` returned, which for a non-empty
`installDir` is `installDir` itself, and on a non-nil error the returned path is
empty. -/
theorem download_returns_join_terraform (E : Env) (v d : String) (w : World) :
    ((downloadWithVerification E v d w).err = none →
        (ensureInstallDir E d w).1.2 = none ∧
        (downloadWithVerification E v d w).path
          = E.join (ensureInstallDir E d w).1.1 "terraform") ∧
      (d ≠ "" → (downloadWithVerification E v d w).err = none →
        (downloadWithVerification E v d w).path = E.join d "terraform") ∧
      ((downloadWithVerification E v d w).err ≠ none →
        (downloadWithVerification E v d w).path = "") := by
  have key : ((downloadWithVerification E v d w).err = none →
        (ensureInstallDir E d w).1.2 = none ∧
        (downloadWithVerification E v d w).path
          = E.join (ensureInstallDir E d w).1.1 "terraform") ∧
      ((downloadWithVerification E v d w).err ≠ none →
        (downloadWithVerification E v d w).path = "") := by
    unfold downloadWithVerification
    simp only []
    split
    · rename_i h; simp [h]
    · rename_i tfDir w1 h
      split
      · simp
      · rename_i tmp w2 h2
        have hs := downloadSteps_err_path E v E.GOOS E.GOARCH tfDir tmp
          { Src := "", Dst := "", Mode := ClientMode.ClientModeAny, Getters := ["https"] } w2
        simp only [h]
        exact ⟨fun he => ⟨trivial, hs.1 he⟩, hs.2⟩
  refine ⟨key.1, ?_, key.2⟩
  intro hd he
  have h1 := key.1 he
  rw [ensureInstallDir_nonempty E d w hd] at h1
  cases hst : Stat w d with
  | none => rw [hst] at h1; simpa using h1.2
  | some e => rw [hst] at h1; simp at h1

/-- The possible courses of the steps after the `defer`. -/
theorem downloadSteps_cases (E : Env) (v tfDir tmp : String) (w : World) :
    (∃ e w1, E.get (sumsClient E v tmp) w = (some e, w1) ∧
      downloadSteps E v E.GOOS E.GOARCH tfDir tmp client0 w =
        ⟨"", some (Errorf "error fetching checksums: %s" [e.Error]),
          [.get (sumsClient E v tmp) (some e)], w1⟩) ∨
    (∃ e w1 w2, E.get (sumsClient E v tmp) w = (none, w1) ∧
      E.get (sigClient E v tmp) w1 = (some e, w2) ∧
      downloadSteps E v E.GOOS E.GOARCH tfDir tmp client0 w =
        ⟨"", some (Errorf "error fetching checksums signature: %s" [e.Error]),
          [.get (sumsClient E v tmp) none, .get (sigClient E v tmp) (some e)], w2⟩) ∨
    (∃ e w1 w2, E.get (sumsClient E v tmp) w = (none, w1) ∧
      E.get (sigClient E v tmp) w1 = (none, w2) ∧
      verifySumsSignature E (E.join tmp (sumsFilename v))
        (E.join tmp (sumsFilename v ++ ".sig")) w2 = some e ∧
      downloadSteps E v E.GOOS E.GOARCH tfDir tmp client0 w =
        ⟨"", some e,
          [.get (sumsClient E v tmp) none, .get (sigClient E v tmp) none,
            .verify (E.join tmp (sumsFilename v)) (E.join tmp (sumsFilename v ++ ".sig"))
              (some e)], w2⟩) ∨
    (∃ e w1 w2 w3, E.get (sumsClient E v tmp) w = (none, w1) ∧
      E.get (sigClient E v tmp) w1 = (none, w2) ∧
      verifySumsSignature E (E.join tmp (sumsFilename v))
        (E.join tmp (sumsFilename v ++ ".sig")) w2 = none ∧
      E.get (zipClient E v tfDir) w2 = (some e, w3) ∧
      downloadSteps E v E.GOOS E.GOARCH tfDir tmp client0 w =
        ⟨"", some e,
          [.get (sumsClient E v tmp) none, .get (sigClient E v tmp) none,
            .verify (E.join tmp (sumsFilename v)) (E.join tmp (sumsFilename v ++ ".sig"))
              none, .get (zipClient E v tfDir) (some e)], w3⟩) ∨
    (∃ w1 w2 w3, E.get (sumsClient E v tmp) w = (none, w1) ∧
      E.get (sigClient E v tmp) w1 = (none, w2) ∧
      verifySumsSignature E (E.join tmp (sumsFilename v))
        (E.join tmp (sumsFilename v ++ ".sig")) w2 = none ∧
      E.get (zipClient E v tfDir) w2 = (none, w3) ∧
      downloadSteps E v E.GOOS E.GOARCH tfDir tmp client0 w =
        ⟨E.join tfDir "terraform", none,
          [.get (sumsClient E v tmp) none, .get (sigClient E v tmp) none,
            .verify (E.join tmp (sumsFilename v)) (E.join tmp (sumsFilename v ++ ".sig"))
              none, .get (zipClient E v tfDir) none], w3⟩) := by
  rcases h1 : E.get (sumsClient E v tmp) w with ⟨_ | e1, w1⟩
  swap
  · left
    refine ⟨e1, w1, rfl, ?_⟩
    simp only [sumsClient, sumsUrl, sumsFilename] at h1
    simp [downloadSteps, client0, h1, sumsClient, sumsUrl, sumsFilename]
  right
  rcases h2 : E.get (sigClient E v tmp) w1 with ⟨_ | e2, w2⟩
  swap
  · left
    refine ⟨e2, w1, w2, rfl, h2, ?_⟩
    simp only [sumsClient, sigClient, sumsUrl, sumsSigUrl, sumsFilename] at h1 h2
    simp [downloadSteps, client0, h1, h2, sumsClient, sigClient, sumsUrl, sumsSigUrl,
      sumsFilename]
  right
  rcases h3 : verifySumsSignature E (E.join tmp (sumsFilename v))
      (E.join tmp (sumsFilename v ++ ".sig")) w2 with _ | e3
  swap
  · left
    refine ⟨e3, w1, w2, rfl, h2, h3, ?_⟩
    simp only [sumsClient, sigClient, sumsUrl, sumsSigUrl, sumsFilename] at h1 h2 h3
    simp [downloadSteps, client0, h1, h2, h3, sumsClient, sigClient, sumsUrl, sumsSigUrl,
      sumsFilename]
  right
  rcases h4 : E.get (zipClient E v tfDir) w2 with ⟨_ | e4, w3⟩
  swap
  · left
    refine ⟨e4, w1, w2, w3, rfl, h2, h3, h4, ?_⟩
    simp only [sumsClient, sigClient, zipClient, sumsUrl, sumsSigUrl, sumsFilename]
      at h1 h2 h3 h4
    simp [downloadSteps, client0, h1, h2, h3, h4, sumsClient, sigClient, zipClient,
      sumsUrl, sumsSigUrl, sumsFilename]
  right
  refine ⟨w1, w2, w3, rfl, h2, h3, h4, ?_⟩
  simp only [sumsClient, sigClient, zipClient, sumsUrl, sumsSigUrl, sumsFilename]
    at h1 h2 h3 h4
  simp [downloadSteps, client0, h1, h2, h3, h4, sumsClient, sigClient, zipClient,
    sumsUrl, sumsSigUrl, sumsFilename]

/-- The possible courses of a call up to the `defer`. -/
theorem download_cases (E : Env) (v d : String) (w : World) :
    (∃ x e w1, ensureInstallDir E d w = ((x, some e), w1) ∧
      downloadWithVerification E v d w = ⟨"", some e, [], w1⟩) ∨
    (∃ tfDir w1 x e w2, ensureInstallDir E d w = ((tfDir, none), w1) ∧
      TempDir E "" "tfinstall" w1 = ((x, some e), w2) ∧
      downloadWithVerification E v d w = ⟨"", some e, [], w2⟩) ∨
    (∃ tfDir w1 tmp w2, ensureInstallDir E d w = ((tfDir, none), w1) ∧
      TempDir E "" "tfinstall" w1 = ((tmp, none), w2) ∧
      downloadWithVerification E v d w =
        ⟨(downloadSteps E v E.GOOS E.GOARCH tfDir tmp client0 w2).path,
          (downloadSteps E v E.GOOS E.GOARCH tfDir tmp client0 w2).err,
          Event.tempDir "tfinstall" tmp ::
            (downloadSteps E v E.GOOS E.GOARCH tfDir tmp client0 w2).trace
              ++ [.removeAll tmp],
          RemoveAll tmp (downloadSteps E v E.GOOS E.GOARCH tfDir tmp client0 w2).world⟩) := by
  rcases h1 : ensureInstallDir E d w with ⟨⟨tfDir, _ | e1⟩, w1⟩
  swap
  · left
    exact ⟨tfDir, e1, w1, rfl, by simp [downloadWithVerification, h1]⟩
  right
  rcases h2 : TempDir E "" "tfinstall" w1 with ⟨⟨tmp, _ | e2⟩, w2⟩
  swap
  · left
    exact ⟨tfDir, w1, tmp, e2, w2, rfl, h2, by simp [downloadWithVerification, h1, h2]⟩
  right
  exact ⟨tfDir, w1, tmp, w2, rfl, h2, by simp [downloadWithVerification, h1, h2, client0]⟩

theorem tempDir_created (E : Env) (dir pat tmp : String) (w w2 : World)
    (h : TempDir E dir pat w = ((tmp, none), w2)) :
    w.pathExists tmp = false ∧ w2.pathExists tmp = true := by
  unfold TempDir at h
  split at h
  · simp at h
  · split at h
    · simp at h
    · rename_i name hm hex
      simp only [Prod.mk.injEq, and_true] at h
      obtain ⟨h1, h2⟩ := h
      subst h1 h2
      simp only [Bool.not_eq_true] at hex
      exact ⟨hex, by simp [World.pathExists]⟩

theorem steps_trace_tempDir (E : Env) (v tfDir tmp : String) (w : World)
    (pat name : String) :
    Event.tempDir pat name ∉ (downloadSteps E v E.GOOS E.GOARCH tfDir tmp client0 w).trace := by
  rcases downloadSteps_cases E v tfDir tmp w with
    ⟨e, w1, _, h⟩ | ⟨e, w1, w2, _, _, h⟩ | ⟨e, w1, w2, _, _, _, h⟩ |
    ⟨e, w1, w2, w3, _, _, _, _, h⟩ | ⟨w1, w2, w3, _, _, _, _, h⟩ <;>
  simp [h]

/-- C5: whatever the outcome of each step, a scratch directory that
`downloadWithVerification` created (it did not exist before the call of
`ioutil.TempDir` and existed right after it) does not exist in the state the call
leaves; when the install directory cannot be resolved or the scratch directory cannot
be created, no scratch directory was created at all. -/
theorem scratch_dir_removed (E : Env) (v d : String) (w : World) :
    (∀ pat name, Event.tempDir pat name ∈ (downloadWithVerification E v d w).trace →
      (downloadWithVerification E v d w).world.pathExists name = false) ∧
    (∀ tfDir w1 tmp w2, ensureInstallDir E d w = ((tfDir, none), w1) →
      TempDir E "" "tfinstall" w1 = ((tmp, none), w2) →
      w1.pathExists tmp = false ∧ w2.pathExists tmp = true ∧
      Event.tempDir "tfinstall" tmp ∈ (downloadWithVerification E v d w).trace ∧
      (downloadWithVerification E v d w).world.pathExists tmp = false) ∧
    ((∀ pat name, Event.tempDir pat name ∉ (downloadWithVerification E v d w).trace) →
      (ensureInstallDir E d w).1.2 ≠ none ∨
      (TempDir E "" "tfinstall" (ensureInstallDir E d w).2).1.2 ≠ none) := by
  rcases download_cases E v d w with
    ⟨x, e, w1, h1, h⟩ | ⟨tfDir, w1, x, e, w2, h1, h2, h⟩ | ⟨tfDir, w1, tmp, w2, h1, h2, h⟩
  · refine ⟨by simp [h], ?_, ?_⟩
    · intro tfDir w1 tmp w2 h1a
      simp [h1] at h1a
    · intro _
      left
      simp [h1]
  · refine ⟨by simp [h], ?_, ?_⟩
    · intro tfDir1 w1a tmp w2a h1a h2a
      simp only [h1, Prod.mk.injEq, true_and, and_true] at h1a
      obtain ⟨ha, hb⟩ := h1a
      subst ha hb
      simp [h2] at h2a
    · intro _
      right
      simp [h1, h2]
  · have hnot := steps_trace_tempDir E v tfDir tmp w2
    refine ⟨?_, ?_, ?_⟩
    · intro pat name hmem
      rw [h] at hmem ⊢
      simp only [List.cons_append, List.mem_cons, Event.tempDir.injEq, List.mem_append,
        List.mem_singleton, reduceCtorEq, or_false, List.not_mem_nil] at hmem
      rcases hmem with ⟨_, hn⟩ | hmem
      · subst hn
        exact removeAll_gone _ _
      · exact absurd hmem (hnot pat name)
    · intro tfDir1 w1a tmp1 w2a h1a h2a
      simp only [h1, Prod.mk.injEq, true_and, and_true] at h1a
      obtain ⟨ha, hb⟩ := h1a
      subst ha hb
      simp only [h2, Prod.mk.injEq, and_true] at h2a
      obtain ⟨ha, hb⟩ := h2a
      subst ha hb
      have hc := tempDir_created E "" "tfinstall" tmp w1 w2 h2
      refine ⟨hc.1, hc.2, ?_, ?_⟩
      · rw [h]; simp
      · rw [h]; exact removeAll_gone _ _
    · intro hno
      exfalso
      apply hno "tfinstall" tmp
      rw [h]; simp

/-- A run in which every step succeeds, and a run whose first fetch fails: in both the
scratch directory is created and is gone afterwards. -/
theorem scratch_dir_removed_witness :
    (ensureInstallDir flipEnv "/opt/tf" world0 = (("/opt/tf", none), world0) ∧
      (TempDir flipEnv "" "tfinstall" world0).1 = ("/tmp/tfinstall1", none) ∧
      (downloadWithVerification flipEnv "1.0.7" "/opt/tf" world0).world.pathExists
        "/tmp/tfinstall1" = false) ∧
    ((downloadWithVerification (toyEnv getFails) "1.0.7" "/opt/tf" world0).err ≠ none ∧
      (downloadWithVerification (toyEnv getFails) "1.0.7" "/opt/tf" world0).world.pathExists
        "/tmp/tfinstall1" = false) :=
  ⟨⟨by decide, by decide,
    ((scratch_dir_removed flipEnv "1.0.7" "/opt/tf" world0).2.1 "/opt/tf" world0
      "/tmp/tfinstall1" (TempDir flipEnv "" "tfinstall" world0).2 (by decide)
      (by decide)).2.2.2⟩,
    by decide,
    (scratch_dir_removed (toyEnv getFails) "1.0.7" "/opt/tf" world0).1 "tfinstall"
      "/tmp/tfinstall1" (by decide)⟩

/-- C6: for a non-empty `installDir` that cannot be stat'ed the call returns the empty
path and a non-nil error, `client.Get` is not called at all, and the state (the
network log included) is left as it was. -/
theorem no_fetch_when_dir_unavailable (E : Env) (v d : String) (w : World)
    (hd : d ≠ "") (hs : Stat w d ≠ none) :
    (downloadWithVerification E v d w).path = "" ∧
    (downloadWithVerification E v d w).err ≠ none ∧
    (∀ c res, Event.get c res ∉ (downloadWithVerification E v d w).trace) ∧
    (downloadWithVerification E v d w).fetched = [] ∧
    (downloadWithVerification E v d w).world = w := by
  have h1 := ensureInstallDir_nonempty E d w hd
  cases hst : Stat w d with
  | none => exact absurd hst hs
  | some e =>
    rw [hst] at h1
    simp [downloadWithVerification, h1, Run.fetched]

/-- The directory `/nope` does not exist on the machine `world0`. -/
theorem no_fetch_when_dir_unavailable_witness :
    (downloadWithVerification flipEnv "1.0.7" "/nope" world0).path = "" ∧
    (downloadWithVerification flipEnv "1.0.7" "/nope" world0).err ≠ none ∧
    (∀ c res, Event.get c res ∉
      (downloadWithVerification flipEnv "1.0.7" "/nope" world0).trace) ∧
    (downloadWithVerification flipEnv "1.0.7" "/nope" world0).fetched = [] ∧
    (downloadWithVerification flipEnv "1.0.7" "/nope" world0).world = world0 :=
  no_fetch_when_dir_unavailable flipEnv "1.0.7" "/nope" world0 (by decide) (by decide)

/-- C7: for a non-empty `installDir`, `ensureInstallDir` returns the path unchanged and
a nil error exactly when stat succeeds, otherwise the empty path and an error wrapping
the stat error, and in both cases leaves the state as it was; a call that changes the
set of directories has an empty `installDir`. -/
theorem ensureInstallDir_given_path (E : Env) (d : String) (w : World) (hd : d ≠ "") :
    ((ensureInstallDir E d w).1 = (d, none) ↔ Stat w d = none) ∧
    (∀ e, Stat w d = some e →
      ∃ e2, (ensureInstallDir E d w).1 = ("", some e2) ∧ e2.Unwrap = some e) ∧
    (ensureInstallDir E d w).2 = w ∧
    (∀ d2 w2, (ensureInstallDir E d2 w2).2.dirs ≠ w2.dirs → d2 = "") := by
  have h1 := ensureInstallDir_nonempty E d w hd
  refine ⟨?_, ?_, ?_, ?_⟩
  · cases hst : Stat w d with
    | none => rw [hst] at h1; simp [h1]
    | some e => rw [hst] at h1; simp [h1]
  · intro e hst
    rw [hst] at h1
    exact ⟨ErrorfW "could not access directory %s for installing Terraform: %w" [d] e,
      by rw [h1], rfl⟩
  · cases hst : Stat w d with
    | none => rw [hst] at h1; simp [h1]
    | some e => rw [hst] at h1; simp [h1]
  · intro d2 w2 hne
    by_contra hd2
    have h2 := ensureInstallDir_nonempty E d2 w2 hd2
    cases hst : Stat w2 d2 with
    | none => rw [hst] at h2; simp [h2] at hne
    | some e => rw [hst] at h2; simp [h2] at hne

/-- On `world0` the directory `/opt/tf` exists: the path is returned unchanged. -/
theorem ensureInstallDir_given_path_witness :
    (ensureInstallDir flipEnv "/opt/tf" world0).1 = ("/opt/tf", none) ∧
    (ensureInstallDir flipEnv "/opt/tf" world0).2 = world0 :=
  ⟨(ensureInstallDir_given_path flipEnv "/opt/tf" world0 (by decide)).1.2 (by decide),
    (ensureInstallDir_given_path flipEnv "/opt/tf" world0 (by decide)).2.2.1⟩

theorem open_ok (w : World) (p : String) (f : File) (h : Open w p = .ok f) :
    f.name = p ∧ f.content = w.files.lookup p := by
  unfold Open at h
  split at h
  · simp at h
  · split at h
    · rename_i b hb
      simp only [Except.ok.injEq] at h
      subst h
      simp [hb]
    · rename_i hb
      split at h
      · simp only [Except.ok.injEq] at h
        subst h
        simp [hb]
      · simp at h

/-- The nil result of `verifySumsSignature`, spelled out. -/
theorem verify_nil_spelled (E : Env) (p q : String) (w : World) :
    verifySumsSignature E p q w = none ↔
      ∃ el data sig, E.readArmoredKeyRing E.hashicorpPublicKey = .ok el ∧
        Open w p = .ok data ∧ Open w q = .ok sig ∧
        data.name = p ∧ data.content = w.files.lookup p ∧
        sig.name = q ∧ sig.content = w.files.lookup q ∧
        E.checkDetachedSignature el data sig = none := by
  unfold verifySumsSignature
  cases hk : E.readArmoredKeyRing E.hashicorpPublicKey with
  | error e => simp
  | ok el =>
    cases hp : Open w p with
    | error e => simp
    | ok data =>
      cases hq : Open w q with
      | error e => simp
      | ok sig =>
        have h1 := open_ok w p data hp
        have h2 := open_ok w q sig hq
        simp only [Except.ok.injEq, exists_and_left, exists_eq_left']
        constructor
        · intro h
          exact ⟨h1.1, h1.2, h2.1, h2.2, h⟩
        · intro h
          exact h.2.2.2.2

/-- C4: `verifySumsSignature` returns nil exactly when the embedded public key parses
into a key ring, both files can be opened, and the detached-signature check of the
opened signature file over the opened checksum file succeeds against that key ring;
the opened files are the ones at the two paths with the bytes the file system holds
for them, and the result depends on the state only through these two files. -/
theorem verifySumsSignature_nil_iff (E : Env) (p q : String) (w : World) :
    (verifySumsSignature E p q w = none ↔
      ∃ el data sig, E.readArmoredKeyRing E.hashicorpPublicKey = .ok el ∧
        Open w p = .ok data ∧ Open w q = .ok sig ∧
        data.name = p ∧ data.content = w.files.lookup p ∧
        sig.name = q ∧ sig.content = w.files.lookup q ∧
        E.checkDetachedSignature el data sig = none) ∧
    (∀ w2, Open w2 p = Open w p → Open w2 q = Open w q →
      verifySumsSignature E p q w2 = verifySumsSignature E p q w) := by
  refine ⟨verify_nil_spelled E p q w, ?_⟩
  intro w2 hp hq
  simp [verifySumsSignature, hp, hq]

theorem sumsUrl_eq (E : Env) (v : String) :
    sumsUrl E v = E.baseUrl ++ "/" ++ v ++ "/terraform_" ++ v ++ "_SHA256SUMS" := by
  apply String.ext
  simp [sumsUrl, sumsFilename, Sprintf, sprintfAux, String.data_append]

theorem sumsSigUrl_eq (E : Env) (v : String) :
    sumsSigUrl E v
      = E.baseUrl ++ "/" ++ v ++ "/terraform_" ++ v ++ "_SHA256SUMS" ++ ".sig" := by
  apply String.ext
  simp [sumsSigUrl, sumsFilename, Sprintf, sprintfAux, String.data_append]

/-- The URLs fetched by a call, in order, are an initial segment of the checksum-file
URL, the signature URL and the archive URL. -/
theorem fetched_prefix (E : Env) (v d : String) (w : World) :
    (downloadWithVerification E v d w).fetched <+:
      [sumsUrl E v, sumsSigUrl E v, tfUrl E.baseUrl v E.GOOS E.GOARCH] := by
  rcases download_cases E v d w with
    ⟨x, e, w1, h1, h⟩ | ⟨tfDir, w1, x, e, w2, h1, h2, h⟩ | ⟨tfDir, w1, tmp, w2, h1, h2, h⟩
  · simp [h, Run.fetched]
  · simp [h, Run.fetched]
  · rw [h]
    rcases downloadSteps_cases E v tfDir tmp w2 with
      ⟨e, w1, _, hs⟩ | ⟨e, w1, w2, _, _, hs⟩ | ⟨e, w1, w2, _, _, _, hs⟩ |
      ⟨e, w1, w2, w3, _, _, _, _, hs⟩ | ⟨w1, w2, w3, _, _, _, _, hs⟩ <;>
    simp only [hs, Run.fetched, List.filterMap_cons, List.filterMap_nil, List.cons_append,
      List.nil_append, sumsClient, sigClient, zipClient]
    · exact ⟨[_, _], rfl⟩
    · exact ⟨[_], rfl⟩
    · exact ⟨[_], rfl⟩
    · exact ⟨[], rfl⟩
    · exact ⟨[], rfl⟩

/-- Once the install directory is resolved and the scratch directory created, the
checksum-file URL is fetched; when that fetch returns nil the signature URL is fetched
next; when that returns nil and the verification returns nil the archive URL is
fetched. -/
theorem fetched_chain (E : Env) (v d : String) (w : World) (tfDir tmp : String)
    (w1 w2 : World) (h1 : ensureInstallDir E d w = ((tfDir, none), w1))
    (h2 : TempDir E "" "tfinstall" w1 = ((tmp, none), w2)) :
    ∃ rest, (downloadWithVerification E v d w).fetched = sumsUrl E v :: rest ∧
      ∀ w3, E.get (sumsClient E v tmp) w2 = (none, w3) →
        ∃ rest2, (downloadWithVerification E v d w).fetched
            = sumsUrl E v :: sumsSigUrl E v :: rest2 ∧
          ∀ w4, E.get (sigClient E v tmp) w3 = (none, w4) →
            verifySumsSignature E (E.join tmp (sumsFilename v))
              (E.join tmp (sumsFilename v ++ ".sig")) w4 = none →
            (downloadWithVerification E v d w).fetched
              = [sumsUrl E v, sumsSigUrl E v, tfUrl E.baseUrl v E.GOOS E.GOARCH] := by
  rcases download_cases E v d w with
    ⟨x, e, w1a, h1a, h⟩ | ⟨tfDira, w1a, x, e, w2a, h1a, h2a, h⟩ |
    ⟨tfDira, w1a, tmpa, w2a, h1a, h2a, h⟩
  · rw [h1] at h1a; simp at h1a
  · rw [h1] at h1a
    simp only [Prod.mk.injEq, true_and, and_true] at h1a
    obtain ⟨ha, hb⟩ := h1a
    subst ha hb
    rw [h2] at h2a; simp at h2a
  · rw [h1] at h1a
    simp only [Prod.mk.injEq, true_and, and_true] at h1a
    obtain ⟨ha, hb⟩ := h1a
    subst ha hb
    rw [h2] at h2a
    simp only [Prod.mk.injEq, and_true] at h2a
    obtain ⟨ha, hb⟩ := h2a
    subst ha hb
    rw [h]
    rcases downloadSteps_cases E v tfDir tmp w2 with
      ⟨e, wa, g1, hs⟩ | ⟨e, wa, wb, g1, g2, hs⟩ | ⟨e, wa, wb, g1, g2, g3, hs⟩ |
      ⟨e, wa, wb, wc, g1, g2, g3, g4, hs⟩ | ⟨wa, wb, wc, g1, g2, g3, g4, hs⟩ <;>
    rw [hs] <;>
    simp only [Run.fetched, List.filterMap_cons, List.filterMap_nil, List.cons_append,
      List.nil_append] <;>
    refine ⟨_, rfl, ?_⟩ <;> intro w3 k1
    · rw [g1] at k1; simp at k1
    all_goals
      rw [g1] at k1
      simp only [Prod.mk.injEq, true_and] at k1
      subst k1
      refine ⟨_, rfl, ?_⟩
      intro w4 k2 k3
      rw [g2] at k2
    · simp at k2
    all_goals
      simp only [Prod.mk.injEq, true_and] at k2
      subst k2
    · rw [g3] at k3; simp at k3
    · rfl
    · rfl

/-- C3: the URLs a call fetches are, in order, an initial segment of: the checksum-file
URL `baseUrl/version/terraform_version_SHA256SUMS`, that URL followed by `.sig`, and
`tfUrl version GOOS GOARCH`.  They are fetched: once the install directory is resolved
and the scratch directory created, the first fetch is made and its URL is the
checksum-file URL; when it returns nil, the second fetch is made and its URL is the
checksum-file URL followed by `.sig`; when that returns nil and the verification returns
nil, the third URL fetched is `tfUrl version GOOS GOARCH`.  For all strings,
`tfUrl version os arch` is `baseUrl/version/terraform_version_os_arch.zip?checksum=file:`
followed by that same checksum-file URL. -/
theorem url_scheme (E : Env) (v d : String) (w : World) :
    (downloadWithVerification E v d w).fetched <+:
      [E.baseUrl ++ "/" ++ v ++ "/terraform_" ++ v ++ "_SHA256SUMS",
        E.baseUrl ++ "/" ++ v ++ "/terraform_" ++ v ++ "_SHA256SUMS" ++ ".sig",
        tfUrl E.baseUrl v E.GOOS E.GOARCH] ∧
    (∀ tfDir w1 tmp w2, ensureInstallDir E d w = ((tfDir, none), w1) →
      TempDir E "" "tfinstall" w1 = ((tmp, none), w2) →
      ∃ rest, (downloadWithVerification E v d w).fetched
          = (E.baseUrl ++ "/" ++ v ++ "/terraform_" ++ v ++ "_SHA256SUMS") :: rest ∧
        ∀ w3,
          E.get
            { Src := E.baseUrl ++ "/" ++ v ++ "/terraform_" ++ v ++ "_SHA256SUMS",
              Dst := tmp, Mode := ClientMode.ClientModeAny, Getters := ["https"] } w2
            = (none, w3) →
          ∃ rest2, (downloadWithVerification E v d w).fetched
              = (E.baseUrl ++ "/" ++ v ++ "/terraform_" ++ v ++ "_SHA256SUMS")
                :: (E.baseUrl ++ "/" ++ v ++ "/terraform_" ++ v ++ "_SHA256SUMS" ++ ".sig")
                :: rest2 ∧
            ∀ w4,
              E.get
                { Src := E.baseUrl ++ "/" ++ v ++ "/terraform_" ++ v ++ "_SHA256SUMS"
                    ++ ".sig",
                  Dst := tmp, Mode := ClientMode.ClientModeAny, Getters := ["https"] } w3
                = (none, w4) →
              verifySumsSignature E (E.join tmp ("terraform_" ++ v ++ "_SHA256SUMS"))
                (E.join tmp ("terraform_" ++ v ++ "_SHA256SUMS" ++ ".sig")) w4 = none →
              (downloadWithVerification E v d w).fetched
                = [E.baseUrl ++ "/" ++ v ++ "/terraform_" ++ v ++ "_SHA256SUMS",
                    E.baseUrl ++ "/" ++ v ++ "/terraform_" ++ v ++ "_SHA256SUMS" ++ ".sig",
                    tfUrl E.baseUrl v E.GOOS E.GOARCH]) ∧
    (∀ o a, tfUrl E.baseUrl v o a =
      E.baseUrl ++ "/" ++ v ++ "/terraform_" ++ v ++ "_" ++ o ++ "_" ++ a
        ++ ".zip?checksum=file:"
        ++ (E.baseUrl ++ "/" ++ v ++ "/terraform_" ++ v ++ "_SHA256SUMS")) := by
  refine ⟨?_, ?_, fun o a => tfUrl_eq E.baseUrl v o a⟩
  · have h := fetched_prefix E v d w
    rw [sumsUrl_eq, sumsSigUrl_eq] at h
    exact h
  · intro tfDir w1 tmp w2 h1 h2
    have h := fetched_chain E v d w tfDir tmp w1 w2 h1 h2
    simp only [sumsClient, sigClient, sumsFilename, sumsUrl_eq, sumsSigUrl_eq] at h
    exact h

/-- A run in which every step succeeds fetches the three URLs, in this order. -/
theorem url_scheme_witness :
    ensureInstallDir flipEnv "/opt/tf" world0 = (("/opt/tf", none), world0) ∧
    (TempDir flipEnv "" "tfinstall" world0).1 = ("/tmp/tfinstall1", none) ∧
    (downloadWithVerification flipEnv "1.0.7" "/opt/tf" world0).fetched
      = ["https://r.example/terraform/1.0.7/terraform_1.0.7_SHA256SUMS",
          "https://r.example/terraform/1.0.7/terraform_1.0.7_SHA256SUMS.sig",
          "https://r.example/terraform/1.0.7/terraform_1.0.7_linux_amd64.zip"
            ++ "?checksum=file:"
            ++ "https://r.example/terraform/1.0.7/terraform_1.0.7_SHA256SUMS"] := by
  refine ⟨by decide, by decide, ?_⟩
  obtain ⟨_, _, h3⟩ := (url_scheme flipEnv "1.0.7" "/opt/tf" world0).2.1 "/opt/tf" world0
    "/tmp/tfinstall1" (TempDir flipEnv "" "tfinstall" world0).2 (by decide) (by decide)
  obtain ⟨_, _, h4⟩ := h3 _ rfl
  exact (h4 _ rfl (by decide)).trans (by decide)

theorem sumsUrl_ne_tfUrl (E : Env) (v o a : String) :
    sumsUrl E v ≠ tfUrl E.baseUrl v o a := by
  intro h
  have h2 := congrArg String.length h
  rw [sumsUrl_eq, tfUrl_eq] at h2
  have l1 : "/".length = 1 := by decide
  have l2 : "/terraform_".length = 11 := by decide
  have l3 : "_SHA256SUMS".length = 11 := by decide
  have l5 : "_".length = 1 := by decide
  have l6 : ".zip?checksum=file:".length = 19 := by decide
  simp only [String.length_append, l1, l2, l3, l5, l6] at h2
  omega

theorem sumsSigUrl_ne_tfUrl (E : Env) (v o a : String) :
    sumsSigUrl E v ≠ tfUrl E.baseUrl v o a := by
  intro h
  have h2 := congrArg String.length h
  rw [sumsSigUrl_eq, tfUrl_eq] at h2
  have l1 : "/".length = 1 := by decide
  have l2 : "/terraform_".length = 11 := by decide
  have l3 : "_SHA256SUMS".length = 11 := by decide
  have l4 : ".sig".length = 4 := by decide
  have l5 : "_".length = 1 := by decide
  have l6 : ".zip?checksum=file:".length = 19 := by decide
  simp only [String.length_append, l1, l2, l3, l4, l5, l6] at h2
  omega

/-- The events before an archive fetch are the creation of the scratch directory, the
two successful fetches and the successful verification. -/
theorem events_before_artifact_fetch (E : Env) (v d : String) (w : World)
    (pre : List Event) (c : Client) (res : Option GoError) (post : List Event)
    (htr : (downloadWithVerification E v d w).trace = pre ++ Event.get c res :: post)
    (hsrc : c.Src = tfUrl E.baseUrl v E.GOOS E.GOARCH) :
    ∃ tmp, pre = [Event.tempDir "tfinstall" tmp, .get (sumsClient E v tmp) none,
      .get (sigClient E v tmp) none,
      .verify (E.join tmp (sumsFilename v)) (E.join tmp (sumsFilename v ++ ".sig"))
        none] := by
  have n1 := sumsUrl_ne_tfUrl E v E.GOOS E.GOARCH
  have n2 := sumsSigUrl_ne_tfUrl E v E.GOOS E.GOARCH
  rcases download_cases E v d w with
    ⟨x, e, w1, h1, h⟩ | ⟨tfDir, w1, x, e, w2, h1, h2, h⟩ | ⟨tfDir, w1, tmp, w2, h1, h2, h⟩
  · simp [h] at htr
  · simp [h] at htr
  · rw [h] at htr
    refine ⟨tmp, ?_⟩
    rcases downloadSteps_cases E v tfDir tmp w2 with
      ⟨e, w1, _, hs⟩ | ⟨e, w1, w2, _, _, hs⟩ | ⟨e, w1, w2, _, _, _, hs⟩ |
      ⟨e, w1, w2, w3, _, _, _, _, hs⟩ | ⟨w1, w2, w3, _, _, _, _, hs⟩ <;>
    rw [hs] at htr <;>
    rcases pre with _ | ⟨a0, _ | ⟨a1, _ | ⟨a2, _ | ⟨a3, _ | ⟨a4, _ | ⟨a5, _ | ⟨a6, pre⟩⟩⟩⟩⟩⟩⟩ <;>
    simp at htr
    all_goals first
      | (obtain ⟨rfl, rfl, rfl, rfl, _⟩ := htr; rfl)
      | (exfalso
         have hc : sumsClient E v tmp = c ∨ sigClient E v tmp = c := by tauto
         rcases hc with hc | hc
         · rw [← hc] at hsrc; exact n1 hsrc
         · rw [← hc] at hsrc; exact n2 hsrc)

/-- C2: in every run, a `client.Get` with `Src = tfUrl(version, os, arch)` is preceded
by exactly: the creation of the scratch directory, the checksum-file fetch returning
nil, the signature fetch returning nil, and `verifySumsSignature` returning nil, in that
order; and when `verifySumsSignature` returns an error, the call returns the empty path
with that error and no `client.Get` of the run has `Src = tfUrl(version, os, arch)`.
Each verification event is a call of `verifySumsSignature` with that result. -/
theorem artifact_fetch_only_after_verification (E : Env) (v d : String) (w : World) :
    (∀ pre c res post,
      (downloadWithVerification E v d w).trace = pre ++ Event.get c res :: post →
      c.Src = tfUrl E.baseUrl v E.GOOS E.GOARCH →
      ∃ tmp, pre = [Event.tempDir "tfinstall" tmp, .get (sumsClient E v tmp) none,
        .get (sigClient E v tmp) none,
        .verify (E.join tmp (sumsFilename v)) (E.join tmp (sumsFilename v ++ ".sig"))
          none]) ∧
    (∀ p q e, Event.verify p q (some e) ∈ (downloadWithVerification E v d w).trace →
      (downloadWithVerification E v d w).path = "" ∧
      (downloadWithVerification E v d w).err = some e ∧
      ∀ c res, Event.get c res ∈ (downloadWithVerification E v d w).trace →
        c.Src ≠ tfUrl E.baseUrl v E.GOOS E.GOARCH) ∧
    (∀ p q res, Event.verify p q res ∈ (downloadWithVerification E v d w).trace →
      ∃ w2, verifySumsSignature E p q w2 = res) := by
  have n1 := sumsUrl_ne_tfUrl E v E.GOOS E.GOARCH
  have n2 := sumsSigUrl_ne_tfUrl E v E.GOOS E.GOARCH
  refine ⟨fun pre c res post => events_before_artifact_fetch E v d w pre c res post, ?_, ?_⟩
  · intro p q e hmem
    rcases download_cases E v d w with
      ⟨x, e, w1, h1, h⟩ | ⟨tfDir, w1, x, e, w2, h1, h2, h⟩ | ⟨tfDir, w1, tmp, w2, h1, h2, h⟩
    · simp [h] at hmem
    · simp [h] at hmem
    · rw [h] at hmem ⊢
      rcases downloadSteps_cases E v tfDir tmp w2 with
        ⟨e, w1, _, hs⟩ | ⟨e, w1, w2, _, _, hs⟩ | ⟨e, w1, w2, _, _, _, hs⟩ |
        ⟨e, w1, w2, w3, _, _, _, _, hs⟩ | ⟨w1, w2, w3, _, _, _, _, hs⟩ <;>
      rw [hs] at hmem ⊢ <;> simp at hmem
      obtain ⟨_, _, he⟩ := hmem
      subst he
      refine ⟨rfl, rfl, ?_⟩
      intro c res hc
      simp at hc
      rcases hc with ⟨hc, _⟩ | ⟨hc, _⟩
      · rw [hc]; exact n1
      · rw [hc]; exact n2
  · intro p q res hmem
    rcases download_cases E v d w with
      ⟨x, e, w1, h1, h⟩ | ⟨tfDir, w1, x, e, w2, h1, h2, h⟩ | ⟨tfDir, w1, tmp, w2, h1, h2, h⟩
    · simp [h] at hmem
    · simp [h] at hmem
    · rw [h] at hmem
      rcases downloadSteps_cases E v tfDir tmp w2 with
        ⟨e, w1, _, hs⟩ | ⟨e, w1, w2, _, _, hs⟩ | ⟨e, w1, w2, _, _, hv, hs⟩ |
        ⟨e, w1, w2, w3, _, _, hv, _, hs⟩ | ⟨w1, w2, w3, _, _, hv, _, hs⟩ <;>
      rw [hs] at hmem <;> simp at hmem
      all_goals
        obtain ⟨hp, hq, hr⟩ := hmem
        subst hp hq hr
        exact ⟨_, hv⟩

/-- A run whose signature does not verify, and a run that reaches the archive fetch. -/
theorem artifact_fetch_only_after_verification_witness :
    ((downloadWithVerification badSigEnv "1.0.7" "/opt/tf" world0).path = "" ∧
      (downloadWithVerification badSigEnv "1.0.7" "/opt/tf" world0).err
        = some (.leaf "openpgp: invalid signature") ∧
      ∀ c res,
        Event.get c res ∈ (downloadWithVerification badSigEnv "1.0.7" "/opt/tf" world0).trace →
        c.Src ≠ tfUrl badSigEnv.baseUrl "1.0.7" badSigEnv.GOOS badSigEnv.GOARCH) ∧
    (∃ tmp, [Event.tempDir "tfinstall" "/tmp/tfinstall1",
        .get (sumsClient flipEnv "1.0.7" "/tmp/tfinstall1") none,
        .get (sigClient flipEnv "1.0.7" "/tmp/tfinstall1") none,
        .verify "/tmp/tfinstall1/terraform_1.0.7_SHA256SUMS"
          "/tmp/tfinstall1/terraform_1.0.7_SHA256SUMS.sig" none]
      = [Event.tempDir "tfinstall" tmp, .get (sumsClient flipEnv "1.0.7" tmp) none,
        .get (sigClient flipEnv "1.0.7" tmp) none,
        .verify (flipEnv.join tmp (sumsFilename "1.0.7"))
          (flipEnv.join tmp (sumsFilename "1.0.7" ++ ".sig")) none]) :=
  ⟨(artifact_fetch_only_after_verification badSigEnv "1.0.7" "/opt/tf" world0).2.1
      "/tmp/tfinstall1/terraform_1.0.7_SHA256SUMS"
      "/tmp/tfinstall1/terraform_1.0.7_SHA256SUMS.sig"
      (.leaf "openpgp: invalid signature") (by decide),
    (artifact_fetch_only_after_verification flipEnv "1.0.7" "/opt/tf" world0).1
      _ (zipClient flipEnv "1.0.7" "/opt/tf") none [.removeAll "/tmp/tfinstall1"]
      (by decide) (by decide)⟩

/-- A run of C8: the install directory `/opt/tf` exists and every step succeeds. -/
theorem download_returns_join_terraform_witness :
    (downloadWithVerification flipEnv "1.0.7" "/opt/tf" world0).path
      = flipEnv.join "/opt/tf" "terraform" :=
  (download_returns_join_terraform flipEnv "1.0.7" "/opt/tf" world0).2.1
    (by decide) (by decide)

/-- On `world0` with the checksum file and a valid signature in place, verification
returns nil. -/
theorem verifySumsSignature_nil_iff_witness :
    verifySumsSignature flipEnv "/s" "/s.sig"
      { world0 with files := [("/s", [1]), ("/s.sig", [1, 7])] } = none :=
  (verifySumsSignature_nil_iff flipEnv "/s" "/s.sig"
      { world0 with files := [("/s", [1]), ("/s.sig", [1, 7])] }).1.2
    ⟨["KEY"], ⟨"/s", some [1]⟩, ⟨"/s.sig", some [1, 7]⟩, rfl, rfl, rfl,
      rfl, by decide, rfl, by decide, by decide⟩

/-- Every `client.Get` of a run is one of the three of the source, with these clients. -/
theorem get_events (E : Env) (v d : String) (w : World) (c : Client)
    (res : Option GoError)
    (hmem : Event.get c res ∈ (downloadWithVerification E v d w).trace) :
    (∃ tmp, Event.tempDir "tfinstall" tmp ∈ (downloadWithVerification E v d w).trace ∧
      (c = sumsClient E v tmp ∨ c = sigClient E v tmp)) ∨
    c = zipClient E v (ensureInstallDir E d w).1.1 := by
  rcases download_cases E v d w with
    ⟨x, e, w1, h1, h⟩ | ⟨tfDir, w1, x, e, w2, h1, h2, h⟩ | ⟨tfDir, w1, tmp, w2, h1, h2, h⟩
  · simp [h] at hmem
  · simp [h] at hmem
  · rw [h] at hmem ⊢
    rw [h1]
    have key : (c = sumsClient E v tmp ∨ c = sigClient E v tmp) ∨
        c = zipClient E v tfDir := by
      rcases downloadSteps_cases E v tfDir tmp w2 with
        ⟨e, w1, _, hs⟩ | ⟨e, w1, w2, _, _, hs⟩ | ⟨e, w1, w2, _, _, _, hs⟩ |
        ⟨e, w1, w2, w3, _, _, _, _, hs⟩ | ⟨w1, w2, w3, _, _, _, _, hs⟩ <;>
      rw [hs] at hmem <;> simp at hmem <;> tauto
    rcases key with key | key
    · left
      exact ⟨tmp, by simp, key⟩
    · right
      exact key

/-- C10 as the code has it: the checksum file and the signature are fetched with
`client.Mode = ClientModeAny` and the scratch directory itself as `client.Dst`; the
archive is fetched with `client.Mode = ClientModeDir` and the resolved install
directory as `client.Dst`; no fetch is made with `ClientModeFile`, and the mode of a
checksum-file or signature fetch differs from the mode of an archive fetch. -/
theorem fetch_modes (E : Env) (v d : String) (w : World) :
    (∀ c res, Event.get c res ∈ (downloadWithVerification E v d w).trace →
      (c.Src = sumsUrl E v ∨ c.Src = sumsSigUrl E v) →
      c.Mode = ClientMode.ClientModeAny ∧
      Event.tempDir "tfinstall" c.Dst ∈ (downloadWithVerification E v d w).trace) ∧
    (∀ c res, Event.get c res ∈ (downloadWithVerification E v d w).trace →
      c.Src = tfUrl E.baseUrl v E.GOOS E.GOARCH →
      c.Mode = ClientMode.ClientModeDir ∧ c.Dst = (ensureInstallDir E d w).1.1) ∧
    (∀ c res, Event.get c res ∈ (downloadWithVerification E v d w).trace →
      c.Mode ≠ ClientMode.ClientModeFile ∧
      (c.Src = sumsUrl E v ∨ c.Src = sumsSigUrl E v ∨
        c.Src = tfUrl E.baseUrl v E.GOOS E.GOARCH)) ∧
    (∀ c1 r1 c2 r2, Event.get c1 r1 ∈ (downloadWithVerification E v d w).trace →
      Event.get c2 r2 ∈ (downloadWithVerification E v d w).trace →
      (c1.Src = sumsUrl E v ∨ c1.Src = sumsSigUrl E v) →
      c2.Src = tfUrl E.baseUrl v E.GOOS E.GOARCH → c1.Mode ≠ c2.Mode) := by
  have n1 := sumsUrl_ne_tfUrl E v E.GOOS E.GOARCH
  have n2 := sumsSigUrl_ne_tfUrl E v E.GOOS E.GOARCH
  have hA : ∀ c res, Event.get c res ∈ (downloadWithVerification E v d w).trace →
      (c.Src = sumsUrl E v ∨ c.Src = sumsSigUrl E v) →
      c.Mode = ClientMode.ClientModeAny ∧
      Event.tempDir "tfinstall" c.Dst ∈ (downloadWithVerification E v d w).trace := by
    intro c res hmem hsrc
    rcases get_events E v d w c res hmem with ⟨tmp, ht, hc | hc⟩ | hc
    · subst hc; exact ⟨rfl, ht⟩
    · subst hc; exact ⟨rfl, ht⟩
    · subst hc
      rcases hsrc with hsrc | hsrc
      · exact absurd hsrc.symm n1
      · exact absurd hsrc.symm n2
  have hB : ∀ c res, Event.get c res ∈ (downloadWithVerification E v d w).trace →
      c.Src = tfUrl E.baseUrl v E.GOOS E.GOARCH →
      c.Mode = ClientMode.ClientModeDir ∧ c.Dst = (ensureInstallDir E d w).1.1 := by
    intro c res hmem hsrc
    rcases get_events E v d w c res hmem with ⟨tmp, ht, hc | hc⟩ | hc
    · subst hc; exact absurd hsrc n1
    · subst hc; exact absurd hsrc n2
    · subst hc; exact ⟨rfl, rfl⟩
  refine ⟨hA, hB, ?_, ?_⟩
  · intro c res hmem
    rcases get_events E v d w c res hmem with ⟨tmp, ht, hc | hc⟩ | hc <;> subst hc
    · exact ⟨by simp [sumsClient], Or.inl rfl⟩
    · exact ⟨by simp [sigClient], Or.inr (Or.inl rfl)⟩
    · exact ⟨by simp [zipClient], Or.inr (Or.inr rfl)⟩
  · intro c1 r1 c2 r2 m1 m2 s1 s2
    rw [(hA c1 r1 m1 s1).1, (hB c2 r2 m2 s2).1]
    decide

/-- The three fetches of a run in which every step succeeds. -/
theorem fetch_modes_witness :
    ((sumsClient flipEnv "1.0.7" "/tmp/tfinstall1").Mode = ClientMode.ClientModeAny ∧
      Event.tempDir "tfinstall" (sumsClient flipEnv "1.0.7" "/tmp/tfinstall1").Dst ∈
        (downloadWithVerification flipEnv "1.0.7" "/opt/tf" world0).trace) ∧
    ((zipClient flipEnv "1.0.7" "/opt/tf").Mode = ClientMode.ClientModeDir ∧
      (zipClient flipEnv "1.0.7" "/opt/tf").Dst
        = (ensureInstallDir flipEnv "/opt/tf" world0).1.1) :=
  ⟨(fetch_modes flipEnv "1.0.7" "/opt/tf" world0).1
      (sumsClient flipEnv "1.0.7" "/tmp/tfinstall1") none (by decide) (Or.inl rfl),
    (fetch_modes flipEnv "1.0.7" "/opt/tf" world0).2.1
      (zipClient flipEnv "1.0.7" "/opt/tf") none (by decide) rfl⟩

/-- C10 as stated fails: in this run the checksum file is fetched with
`ClientModeAny`, not `ClientModeFile`, and the fetch destination is the scratch
directory `/tmp/tfinstall1` itself, an existing directory at that point and not the
file path `sumsPath` inside it. -/
theorem manifest_fetch_not_file_mode :
    ∃ c, Event.get c none ∈ (downloadWithVerification flipEnv "1.0.7" "/opt/tf" world0).trace ∧
      c.Src = sumsUrl flipEnv "1.0.7" ∧
      c.Mode = ClientMode.ClientModeAny ∧ c.Mode ≠ ClientMode.ClientModeFile ∧
      c.Dst = "/tmp/tfinstall1" ∧
      (TempDir flipEnv "" "tfinstall" world0).1 = (c.Dst, none) ∧
      c.Dst ≠ flipEnv.join "/tmp/tfinstall1" (sumsFilename "1.0.7") :=
  ⟨sumsClient flipEnv "1.0.7" "/tmp/tfinstall1", by decide, rfl, rfl, by decide, rfl,
    by decide, by decide⟩

theorem splitQuery_append (a b : List Char) (h : '?' ∉ a) :
    splitQuery (a ++ '?' :: b) = (a, some b) := by
  induction a with
  | nil => simp [splitQuery]
  | cons c r ih =>
    simp only [List.mem_cons, not_or] at h
    have hc : c ≠ '?' := fun e => h.1 e.symm
    simp [splitQuery, hc, ih h.2]

theorem checksumFileRef_some (s : String) :
    checksumFileRef (some ("checksum=file:".data ++ s.data)) = some s := by
  have h1 : "checksum=file:".data.isPrefixOf ("checksum=file:".data ++ s.data) = true := by
    rw [List.isPrefixOf_iff_prefix]
    exact List.prefix_append _ _
  have h2 : ("checksum=file:".data ++ s.data).drop 14 = s.data := by
    have : "checksum=file:".data.length = 14 := by decide
    rw [← this, List.drop_left]
  simp only [checksumFileRef, h1, h2, if_true]

theorem tfUrl_data (E : Env) (v : String) :
    (tfUrl E.baseUrl v E.GOOS E.GOARCH).data
      = (zipUrl E v).data ++ '?' :: ("checksum=file:".data ++ (sumsUrl E v).data) := by
  rw [tfUrl_eq, sumsUrl_eq]
  simp [zipUrl, String.data_append]

theorem tfUrl_split (E : Env) (v : String) (hb : '?' ∉ E.baseUrl.data) (hv : '?' ∉ v.data)
    (ho : '?' ∉ E.GOOS.data) (ha : '?' ∉ E.GOARCH.data) :
    splitQuery (tfUrl E.baseUrl v E.GOOS E.GOARCH).data
      = ((zipUrl E v).data, some ("checksum=file:".data ++ (sumsUrl E v).data)) := by
  rw [tfUrl_data]
  apply splitQuery_append
  simp [zipUrl, String.data_append, hb, hv, ho, ha]

theorem writeFile_net (p : String) (b : Bytes) (w : World) : (writeFile p b w).net = w.net := rfl

theorem foldl_writeFile_net (f : String → String) (entries : List (String × Bytes)) (w : World) :
    (entries.foldl (fun w e => writeFile (f e.1) e.2 w) w).net = w.net := by
  induction entries generalizing w with
  | nil => rfl
  | cons e r ih => simp [List.foldl, ih, writeFile_net]

theorem goGet_checksum_success (L : Lib) (join : String → String → String) (c : Client)
    (w w3 : World) (ref : String)
    (href : checksumFileRef (splitQuery c.Src.data).2 = some ref)
    (h : goGet L join c w = (none, w3)) :
    ∃ sums zip, L.respond w.net.length ref = some sums ∧
      L.respond (w.net.length + 1) ⟨(splitQuery c.Src.data).1⟩ = some zip ∧
      L.sumsEntry sums ⟨baseName (splitQuery c.Src.data).1⟩ = some (L.sha256 zip) ∧
      w3.net = w.net ++ [(ref, some sums), (⟨(splitQuery c.Src.data).1⟩, some zip)] := by
  unfold goGet at h
  simp only [href] at h
  split at h
  · simp at h
  · split at h
    · rename_i hx _ _; simp at hx
    · rename_i ref2 hr hm hz
      simp only [Option.some.injEq] at hr
      subst hr
      split at h
      · simp at h
      · simp only [retrieve] at h
        split at h
        · simp at h
        · rename_i sums w1 hret
          simp only [Prod.mk.injEq] at hret
          obtain ⟨hs, hw1⟩ := hret
          subst hw1
          split at h
          · simp at h
          · rename_i want hwant
            split at h
            · simp at h
            · rename_i zip w2 hret2
              simp only [Prod.mk.injEq, List.length_append, List.length_singleton] at hret2
              obtain ⟨hzip, hw2⟩ := hret2
              subst hw2
              split at h
              · simp at h
              · rename_i hsha
                simp only [ne_eq, Decidable.not_not] at hsha
                split at h
                · simp at h
                · rename_i entries hun
                  simp only [Prod.mk.injEq, true_and] at h
                  subst h
                  refine ⟨sums, zip, hs.symm ▸ rfl, hzip, ?_, ?_⟩
                  · rw [hwant, hsha]
                  · rw [foldl_writeFile_net]
                    simp [hs, hzip]
    · simp at h

/-- C1 as the code has it: the checksum reference embedded in the locator built by
`tfUrl` is the remote URL `sumsUrl`, the same string as the URL of the first fetch.  In
a successful run (under the go-getter model, the four strings holding no `?`) the
scratch copy at `sumsPath`, as the two fetches of the run left it in the scratch
directory the run created, passed the signature check, and the archive's digest equals
the entry for its file name in the bytes the remote answered to a further retrieval of
`sumsUrl` made during the archive fetch; the archive matches the signature-verified
bytes when that answer equals the scratch copy. -/
theorem checksum_enforced_against_refetched_manifest (L : Lib) (E : Env) (v d : String)
    (w : World) (hb : '?' ∉ E.baseUrl.data) (hv : '?' ∉ v.data)
    (ho : '?' ∉ E.GOOS.data) (ha : '?' ∉ E.GOARCH.data)
    (hok : (downloadWithVerification (withGoGetter L E) v d w).err = none) :
    checksumFileRef (splitQuery (tfUrl E.baseUrl v E.GOOS E.GOARCH).data).2
      = some (sumsUrl E v) ∧
    (downloadWithVerification (withGoGetter L E) v d w).fetched
      = [sumsUrl E v, sumsSigUrl E v, tfUrl E.baseUrl v E.GOOS E.GOARCH] ∧
    ∃ tfDir w1 tmp w0 wa w2 w3 el data sig sums zip,
      ensureInstallDir (withGoGetter L E) d w = ((tfDir, none), w1) ∧
      TempDir (withGoGetter L E) "" "tfinstall" w1 = ((tmp, none), w0) ∧
      goGet L E.join (sumsClient (withGoGetter L E) v tmp) w0 = (none, wa) ∧
      goGet L E.join (sigClient (withGoGetter L E) v tmp) wa = (none, w2) ∧
      verifySumsSignature (withGoGetter L E) (E.join tmp (sumsFilename v))
        (E.join tmp (sumsFilename v ++ ".sig")) w2 = none ∧
      goGet L E.join (zipClient (withGoGetter L E) v tfDir) w2 = (none, w3) ∧
      (downloadWithVerification (withGoGetter L E) v d w).world = RemoveAll tmp w3 ∧
      (downloadWithVerification (withGoGetter L E) v d w).path = E.join tfDir "terraform" ∧
      E.readArmoredKeyRing E.hashicorpPublicKey = .ok el ∧
      Open w2 (E.join tmp (sumsFilename v)) = .ok data ∧
      Open w2 (E.join tmp (sumsFilename v ++ ".sig")) = .ok sig ∧
      data.content = w2.files.lookup (E.join tmp (sumsFilename v)) ∧
      E.checkDetachedSignature el data sig = none ∧
      L.respond w2.net.length (sumsUrl E v) = some sums ∧
      L.respond (w2.net.length + 1) (zipUrl E v) = some zip ∧
      L.sumsEntry sums ⟨baseName (zipUrl E v).data⟩ = some (L.sha256 zip) ∧
      (downloadWithVerification (withGoGetter L E) v d w).world.net
        = w2.net ++ [(sumsUrl E v, some sums), (zipUrl E v, some zip)] ∧
      (data.content = some sums →
        ∃ verified, data.content = some verified ∧
          L.sumsEntry verified ⟨baseName (zipUrl E v).data⟩ = some (L.sha256 zip)) := by
  have hsplit := tfUrl_split E v hb hv ho ha
  have href : checksumFileRef (splitQuery (tfUrl E.baseUrl v E.GOOS E.GOARCH).data).2
      = some (sumsUrl E v) := by
    rw [hsplit]; exact checksumFileRef_some _
  refine ⟨href, ?_⟩
  rcases download_cases (withGoGetter L E) v d w with
    ⟨x, e, w1, h1, h⟩ | ⟨tfDir, w1, x, e, w2, h1, h2, h⟩ | ⟨tfDir, w1, tmp, w2, h1, h2, h⟩
  · simp [h] at hok
  · simp [h] at hok
  · rw [h] at hok ⊢
    rcases downloadSteps_cases (withGoGetter L E) v tfDir tmp w2 with
      ⟨e, w1, _, hs⟩ | ⟨e, w1, w2, _, _, hs⟩ | ⟨e, w1, w2, _, _, _, hs⟩ |
      ⟨e, w1, w2, w3, _, _, _, _, hs⟩ | ⟨wa, wv, w3, g1, g2, hver, hget, hs⟩ <;>
    rw [hs] at hok <;> simp at hok
    rw [hs]
    refine ⟨rfl, ?_⟩
    obtain ⟨el, data, sig, hk, hp, hq, _, hcont, _, _, hchk⟩ :=
      (verify_nil_spelled (withGoGetter L E) _ _ wv).1 hver
    obtain ⟨sums, zip, hr1, hr2, hent, hnet⟩ :=
      goGet_checksum_success L E.join (zipClient (withGoGetter L E) v tfDir) wv w3
        (sumsUrl E v) href hget
    have hpath : (splitQuery (zipClient (withGoGetter L E) v tfDir).Src.data).1
        = (zipUrl E v).data := by
      show (splitQuery (tfUrl E.baseUrl v E.GOOS E.GOARCH).data).1 = _
      rw [hsplit]
    rw [hpath] at hr2 hent hnet
    refine ⟨tfDir, w1, tmp, w2, wa, wv, w3, el, data, sig, sums, zip, h1, h2, g1, g2, hver,
      hget, rfl, rfl, hk, hp, hq, hcont, hchk, hr1, hr2, hent, hnet, ?_⟩
    intro hsame
    exact ⟨sums, hsame, hent⟩

/-- A successful run with string parameters holding no `?`. -/
theorem checksum_enforced_against_refetched_manifest_witness :
    checksumFileRef (splitQuery (tfUrl "https://r.example/terraform" "1.0.7" "linux"
        "amd64").data).2
      = some (sumsUrl (toyEnv getNoop) "1.0.7") :=
  (checksum_enforced_against_refetched_manifest flipLib (toyEnv getNoop) "1.0.7" "/opt/tf"
    world0 (by decide) (by decide) (by decide) (by decide) (by decide)).1

/-- C1 as stated fails.  The remote answers the first retrieval of the checksum-file URL
with `[1]` and a valid signature of it, and the retrieval of the same URL made during
the archive fetch with `[2]`.  The run succeeds and installs the archive `[2]`: its
digest is the entry of the checksum file `[2]`, which was never signature-verified and
would not verify, and is not the entry of the verified scratch copy `[1]`.  The
checksum reference in the locator is the URL, not `sumsPath`. -/
theorem unverified_manifest_accepted :
    (downloadWithVerification flipEnv "1.0.7" "/opt/tf" world0).err = none ∧
    (downloadWithVerification flipEnv "1.0.7" "/opt/tf" world0).path = "/opt/tf/terraform" ∧
    (downloadWithVerification flipEnv "1.0.7" "/opt/tf" world0).world.net
      = [(sumsUrl flipEnv "1.0.7", some [1]), (sumsSigUrl flipEnv "1.0.7", some [1, 7]),
          (sumsUrl flipEnv "1.0.7", some [2]), (zipUrl flipEnv "1.0.7", some [2])] ∧
    (downloadWithVerification flipEnv "1.0.7" "/opt/tf" world0).world.files
      = [("/opt/tf/terraform", [2])] ∧
    Event.verify "/tmp/tfinstall1/terraform_1.0.7_SHA256SUMS"
        "/tmp/tfinstall1/terraform_1.0.7_SHA256SUMS.sig" none
      ∈ (downloadWithVerification flipEnv "1.0.7" "/opt/tf" world0).trace ∧
    Open flipVerifyWorld "/tmp/tfinstall1/terraform_1.0.7_SHA256SUMS"
      = .ok ⟨"/tmp/tfinstall1/terraform_1.0.7_SHA256SUMS", some [1]⟩ ∧
    verifySumsSignature flipEnv "/tmp/tfinstall1/terraform_1.0.7_SHA256SUMS"
      "/tmp/tfinstall1/terraform_1.0.7_SHA256SUMS.sig" flipVerifyWorld = none ∧
    flipEnv.checkDetachedSignature ["KEY"]
      ⟨"/tmp/tfinstall1/terraform_1.0.7_SHA256SUMS", some [2]⟩
      ⟨"/tmp/tfinstall1/terraform_1.0.7_SHA256SUMS.sig", some [1, 7]⟩ ≠ none ∧
    flipLib.sumsEntry [1] "terraform_1.0.7_linux_amd64.zip" ≠ some (flipLib.sha256 [2]) ∧
    flipLib.sumsEntry [2] "terraform_1.0.7_linux_amd64.zip" = some (flipLib.sha256 [2]) ∧
    checksumFileRef (splitQuery (tfUrl flipEnv.baseUrl "1.0.7" "linux" "amd64").data).2
      = some (sumsUrl flipEnv "1.0.7") ∧
    sumsUrl flipEnv "1.0.7" ≠ flipEnv.join "/tmp/tfinstall1" (sumsFilename "1.0.7") :=
  ⟨by decide, by decide, by decide, by decide, by decide, rfl, by decide, by decide,
    by decide, by decide, by decide, by decide⟩

theorem filesEqualLoop_self (l : List Bytes) : filesEqualLoop l l = false := by
  induction l with
  | nil => rfl
  | cons a r ih => simp [filesEqualLoop, ih]

/-- For two files that open with the same contents the code returns false. -/
theorem filesEqual_same_contents (w : World) (file1 file2 : String) (sf df : File)
    (h1 : Open w file1 = .ok sf) (h2 : Open w file2 = .ok df)
    (h : sf.content = df.content) :
    filesEqual w file1 file2 = (false, none) := by
  have hs : NewScanner sf = NewScanner df := by simp [NewScanner, h]
  simp [filesEqual, h1, h2, hs, filesEqualLoop_self]

/-- C9 fails on the code: for the two files `/d/one` and `/d/two`, both holding `a\n`,
`filesEqual` returns `(false, nil)`, and for `/d/one` and `/d/three`, whose first lines
differ, it returns `(true, nil)`; the comment of the function says it returns true iff
the two files have the same contents. -/
theorem filesEqual_inverted :
    Open worldFiles "/d/one" = .ok ⟨"/d/one", some [97, 10]⟩ ∧
    Open worldFiles "/d/two" = .ok ⟨"/d/two", some [97, 10]⟩ ∧
    Open worldFiles "/d/three" = .ok ⟨"/d/three", some [98, 10]⟩ ∧
    filesEqual worldFiles "/d/one" "/d/two" = (false, none) ∧
    filesEqual worldFiles "/d/one" "/d/three" = (true, none) :=
  ⟨rfl, rfl, rfl, by decide, by decide⟩

end TerraformExec
